import Mathlib

/-!
# Verification of the quaero-engines search-provider adapters

A shallow embedding of the six provider adapters (Bing, Brave, Google,
Mojeek, Yahoo, Yandex) from `src/`: URL construction (`url`), response
validation (`validate_response`) and result extraction (`parse`), together
with the shared data model they use.

The adapters operate on a parsed HTML document produced by the external
`html_hybrid_parser` facade; the facade is modelled by the `HtmlNode` tree
and the query functions below (find-first and find-all by class, by tag, by id,
on descendants or on direct children), exactly the capability surface the
adapters consume.  The HTML text-to-tree step itself is external: every
input text (well-formed or not, including the empty string) is parsed to
some document, so quantifying over all `Dom` values quantifies over all
response bodies.

Types and helpers that live in the sibling crate `quaero_shared` (not part
of this repository's sources here) are modelled from the specification and
carry a doc comment starting `Modelled from the spec:`.
-/

/-- Safe-search level of a query description (`SafeSearch` in `quaero_shared`). -/
inductive SafeSearch where
  | Off
  | Moderate
  | Strict
deriving DecidableEq

/-- Modelled from the spec: `SafeSearch::as_lowercase_string` from
`quaero_shared` — the level's name in lowercase, as sent to providers
that take a textual safe-search parameter. -/
def safeSearchLowercase : SafeSearch → String
  | .Off => "off"
  | .Moderate => "moderate"
  | .Strict => "strict"

/-- Modelled from the spec: `SafeSearch::as_incrementing_usize` from
`quaero_shared` — the levels numbered in their declared order
`Off`, `Moderate`, `Strict` (so `Strict` is `2`, the strictest level). -/
def safeSearchIncrementing : SafeSearch → Nat
  | .Off => 0
  | .Moderate => 1
  | .Strict => 2

/-- Modelled from the spec: `SafeSearch::as_u8_bool` from `quaero_shared` —
safe search off is `0`, any filtering level is `1`. -/
def safeSearchU8Bool : SafeSearch → Nat
  | .Off => 0
  | .Moderate => 1
  | .Strict => 1

/-- A calendar date.  Modelled from the spec: the date endpoints of a
query's date range are calendar dates (`chrono` values in `quaero_shared`);
the adapters only read the year / month / day fields and day-counts since
the Unix epoch. -/
structure CivilDate where
  year : Int
  month : Int
  day : Int
deriving DecidableEq

/-- `DateTimeRange` from `quaero_shared`: a `[start, end]` pair of dates
(`ending` stands for the Rust field `end`, a reserved word here). -/
structure DateTimeRange where
  start : CivilDate
  ending : CivilDate
deriving DecidableEq

/-- `SearchOptions` from `quaero_shared`: the provider-agnostic query
description (free text is passed separately to `url`). The page number is
non-negative (`usize` in the source). -/
structure SearchOptions where
  page_num : Nat
  safe_search : SafeSearch
  date_time_range : Option DateTimeRange

/-- `SearchError` from `quaero_shared`: the typed failures an adapter can
return. -/
inductive SearchError where
  | NoResultsFound
  | Captcha
  | SafeSearchRestriction
deriving DecidableEq

/-- `SearchResult` from `quaero_shared`: one labeled result record. -/
structure SearchResult where
  title : String
  url : String
  summary : String
deriving DecidableEq

/-- Days since 1970-01-01 of a civil date (standard civil-from-days
arithmetic).  Modelled from the spec: providers that encode date ranges as
epoch-day offsets obtain the day count from the external date library. -/
def daysFromCivil (dt : CivilDate) : Int :=
  let y : Int := dt.year - (if dt.month ≤ 2 then 1 else 0)
  let era : Int := (if 0 ≤ y then y else y - 399) / 400
  let yoe : Int := y - era * 400
  let mp : Int := (dt.month + 9) % 12
  let doy : Int := (153 * mp + 2) / 5 + dt.day - 1
  let doe : Int := yoe * 365 + yoe / 4 - yoe / 100 + doy
  era * 146097 + doe - 719468

/-- Modelled from the spec: the duration `end - start` of a date range, in
seconds (day-granularity endpoints, 86400 seconds per day), the quantity
the Date-Range Normalizer compares against the preset durations. -/
def rangeDurationSecs (r : DateTimeRange) : Int :=
  86400 * (daysFromCivil r.ending - daysFromCivil r.start)

/-- Modelled from the spec: `DateTimeRange::find_closest_preset` from
`quaero_shared` — given presets listed in ascending duration order, pick
the label of the preset whose duration is closest to the range's duration,
keeping the earlier (smaller) preset on a tie; a pure function of the
duration only. -/
def findClosestPresetPair (presets : List (Int × String)) (d : Int) : Int × String :=
  match presets with
  | [] => (0, "")
  | p :: rest =>
      rest.foldl (fun best q => if (q.1 - d).natAbs < (best.1 - d).natAbs then q else best) p

/-- The label of the chosen preset (what the adapters splice into the URL). -/
def findClosestPreset (presets : List (Int × String)) (d : Int) : String :=
  (findClosestPresetPair presets d).2

/-! ## Strings, percent-encoding and the query-parameter encoder -/

/-- The UTF-8 bytes of one character (as `Nat`s below 256). -/
def utf8Bytes (c : Char) : List Nat :=
  let n := c.toNat
  if n < 0x80 then [n]
  else if n < 0x800 then
    [0xC0 + n / 0x40, 0x80 + n % 0x40]
  else if n < 0x10000 then
    [0xE0 + n / 0x1000, 0x80 + n / 0x40 % 0x40, 0x80 + n % 0x40]
  else
    [0xF0 + n / 0x40000, 0x80 + n / 0x1000 % 0x40, 0x80 + n / 0x40 % 0x40, 0x80 + n % 0x40]

/-- The UTF-8 bytes of a whole string. -/
def strBytes (s : String) : List Nat :=
  s.data.flatMap utf8Bytes

/-- An uppercase hexadecimal digit. -/
def hexDigitChar (n : Nat) : Char :=
  if n < 10 then Char.ofNat (48 + n) else Char.ofNat (55 + n)

/-- A byte that percent-encoding leaves as itself: ALPHA / DIGIT / `-` /
`.` / `_` / `~` (RFC 3986 unreserved). -/
def unreservedByte (b : Nat) : Bool :=
  (48 ≤ b && b ≤ 57) || (65 ≤ b && b ≤ 90) || (97 ≤ b && b ≤ 122)
    || b == 45 || b == 46 || b == 95 || b == 126

/-- One byte of percent-encoded output: the byte itself when unreserved,
else `%XX`. -/
def encodeByte (b : Nat) : List Char :=
  let b := b % 256
  if unreservedByte b then [Char.ofNat b]
  else ['%', hexDigitChar (b / 16), hexDigitChar (b % 16)]

/-- Modelled from the spec: the percent-encoding the Query Parameter
Encoder (the `query_parameters` crate) applies to every parameter value —
standard URL query rules over the value's UTF-8 bytes. -/
def percentEncode (s : String) : String :=
  ⟨(strBytes s).flatMap encodeByte⟩

/-- Modelled from the spec: the Query Parameter Encoder — an ordered list
of key/value pairs emitted as `key=value` joined by `&`, values
percent-encoded (the keys are fixed ASCII names). -/
def encodeQueryParams : List (String × String) → String
  | [] => ""
  | [kv] => kv.1 ++ "=" ++ percentEncode kv.2
  | kv :: rest => kv.1 ++ "=" ++ percentEncode kv.2 ++ "&" ++ encodeQueryParams rest

/-- Every character of `s` satisfies `p`. -/
def strAll (p : Char → Bool) (s : String) : Bool :=
  s.data.all p

/-- Rust `str::starts_with` (`String.startsWith`, stated over the
character list so that it computes by unfolding). -/
def strStartsWith (s pre : String) : Bool :=
  pre.data.isPrefixOf s.data

/-- Drop the first `n` characters (Rust slicing past an ASCII marker). -/
def strDrop (s : String) (n : Nat) : String :=
  ⟨s.data.drop n⟩

/-- Rust `str::trim_start`: drop leading whitespace. -/
def strTrimLeft (s : String) : String :=
  ⟨s.data.dropWhile (fun c => c.isWhitespace)⟩

/-- A character that may appear literally in a well-formed http URL
(RFC 3986 unreserved plus the delimiters the adapters emit). -/
def urlAllowedChar (c : Char) : Bool :=
  c.isAlphanum || c ∈ ['-', '.', '_', '~', ':', '/', '?', '&', '=', '%', '+']

/-- Zero-padded decimal of a natural number, width `w` (Rust `{:0w}`). -/
def padNat (w : Nat) (n : Nat) : String :=
  let s := Nat.repr n
  ⟨List.replicate (w - s.length) '0'⟩ ++ s

/-- Zero-padded decimal of an integer, sign first (Rust `{:0w}`). -/
def padInt (w : Nat) (i : Int) : String :=
  if i < 0 then "-" ++ padNat (w - 1) i.natAbs else padNat w i.natAbs

/-! ## The shared URL Sanitizer (`SanitizedUrl` in `quaero_shared`) -/

/-- Split a character list at the first occurrence of `sep`
(the separator itself is dropped); `acc` holds the part already passed,
reversed. -/
def splitFirstAux (sep : Char) : List Char → List Char → Option (List Char × List Char)
  | [], _ => none
  | c :: cs, acc =>
      if c = sep then some (acc.reverse, cs) else splitFirstAux sep cs (c :: acc)

/-- Split a character list at the first occurrence of `sep`. -/
def splitFirst (sep : Char) (l : List Char) : Option (List Char × List Char) :=
  splitFirstAux sep l []

/-- Split a character list at every occurrence of `sep`. -/
def splitEvery (sep : Char) : List Char → List Char → List (List Char)
  | [], acc => [acc.reverse]
  | c :: cs, acc =>
      if c = sep then acc.reverse :: splitEvery sep cs []
      else splitEvery sep cs (c :: acc)

/-- Join character lists with `sep` between them. -/
def joinWith (sep : Char) : List (List Char) → List Char
  | [] => []
  | [x] => x
  | x :: xs => x ++ sep :: joinWith sep xs

/-- The `key` and `value` of one raw `key=value` query-parameter piece
(value empty when there is no `=`). -/
def paramKeyValue (piece : List Char) : String × String :=
  match splitFirst '=' piece with
  | none => (⟨piece⟩, "")
  | some (k, v) => (⟨k⟩, ⟨v⟩)

/-- Modelled from the spec: the shared URL Sanitizer (`SanitizedUrl::new`
in `quaero_shared`) — given a predicate over (parameter name, parameter
value), remove every query parameter the predicate flags and return the
rest of the URL unchanged; a URL without a query part passes through
unmodified. -/
def sanitizeUrl (flagged : String → String → Bool) (url : String) : String :=
  match splitFirst '?' url.data with
  | none => url
  | some (base, query) =>
      let pieces := splitEvery '&' query []
      let kept := pieces.filter (fun p =>
        let kv := paramKeyValue p
        !(flagged kv.1 kv.2))
      ⟨base⟩ ++ "?" ++ ⟨joinWith '&' kept⟩

/-- Modelled from the spec: the default tracking-parameter predicate the
shared `SearchResult::new` constructor sanitizes with (UTM-style
telemetry parameters). -/
def defaultTrackingFlag (key : String) (_value : String) : Bool :=
  strStartsWith key "utm"

/-- Modelled from the spec: `SearchResult::new` from `quaero_shared` —
builds the keyed record for a raw (title, url, summary) triple; the shared
URL Sanitizer is always applied to the URL, and the deduplication key is
derived from the result's URL. -/
def searchResultNew (title url summary : String) : String × SearchResult :=
  let u := sanitizeUrl defaultTrackingFlag url
  (u, ⟨title, u, summary⟩)

/-- Modelled from the spec: `SearchResult::new_from_sanitized_url` from
`quaero_shared` — like `searchResultNew` for a URL already passed through
the sanitizer by the caller (Google sanitizes with its own predicate). -/
def searchResultFromSanitized (title u summary : String) : String × SearchResult :=
  (u, ⟨title, u, summary⟩)

/-! ## The Document Query Facade (`html_hybrid_parser`)

A parsed document is a forest of element nodes; each node carries its tag
name, optional id, class list, other attributes, optional link target
(`get_href`), visible text (`text`), raw concatenated child text
(`children_raw_text`) and child nodes.  The query functions below model
the exact capability set the adapters consume; `class_names_exact!`
matches a node whose class set equals the given set, `class_names_any!`
matches a node having at least one of the given names. -/

inductive HtmlNode where
  | mk (tag : String) (idAttr : Option String) (classes : List String)
       (attrs : List (String × String)) (href : Option String)
       (text : Option String) (rawText : Option String)
       (children : List HtmlNode)

def HtmlNode.tag : HtmlNode → String
  | .mk t _ _ _ _ _ _ _ => t

def HtmlNode.idAttr : HtmlNode → Option String
  | .mk _ i _ _ _ _ _ _ => i

def HtmlNode.classes : HtmlNode → List String
  | .mk _ _ c _ _ _ _ _ => c

def HtmlNode.attrs : HtmlNode → List (String × String)
  | .mk _ _ _ a _ _ _ _ => a

def HtmlNode.href : HtmlNode → Option String
  | .mk _ _ _ _ h _ _ _ => h

def HtmlNode.text : HtmlNode → Option String
  | .mk _ _ _ _ _ t _ _ => t

def HtmlNode.rawText : HtmlNode → Option String
  | .mk _ _ _ _ _ _ r _ => r

def HtmlNode.children : HtmlNode → List HtmlNode
  | .mk _ _ _ _ _ _ _ cs => cs

mutual
/-- All descendants of a node, in document order. -/
def HtmlNode.descendants : HtmlNode → List HtmlNode
  | .mk _ _ _ _ _ _ _ cs => HtmlNode.descendantsList cs

def HtmlNode.descendantsList : List HtmlNode → List HtmlNode
  | [] => []
  | c :: cs => c :: (HtmlNode.descendants c ++ HtmlNode.descendantsList cs)
end

/-- A class-name pattern: `exact` models `class_names_exact!`, `anyOf`
models `class_names_any!`. -/
inductive ClassNames where
  | exact (names : List String)
  | anyOf (names : List String)

/-- `ClassNames::matches` — whether a node's class list matches. -/
def ClassNames.matches : ClassNames → List String → Bool
  | .exact ns, cs => ns.all (fun n => cs.contains n) && cs.all (fun c => ns.contains c)
  | .anyOf ns, cs => ns.any (fun n => cs.contains n)

/-- `get_first_node_with_classes` on a node: first matching descendant. -/
def HtmlNode.firstWithClasses (cn : ClassNames) (n : HtmlNode) : Option HtmlNode :=
  n.descendants.find? (fun m => cn.matches m.classes)

/-- `get_nodes_with_classes` on a node: all matching descendants. -/
def HtmlNode.allWithClasses (cn : ClassNames) (n : HtmlNode) : List HtmlNode :=
  n.descendants.filter (fun m => cn.matches m.classes)

/-- `get_first_node_with_tag` on a node: first descendant with the tag. -/
def HtmlNode.firstWithTag (t : String) (n : HtmlNode) : Option HtmlNode :=
  n.descendants.find? (fun m => m.tag == t)

/-- `get_first_node_with_id` on a node: first descendant with the id. -/
def HtmlNode.firstWithId (i : String) (n : HtmlNode) : Option HtmlNode :=
  n.descendants.find? (fun m => m.idAttr == some i)

/-- `get_first_child_node_with_tag`: first direct child with the tag. -/
def HtmlNode.firstChildWithTag (t : String) (n : HtmlNode) : Option HtmlNode :=
  n.children.find? (fun m => m.tag == t)

/-- `get_first_child_node_with_classes`: first matching direct child. -/
def HtmlNode.firstChildWithClasses (cn : ClassNames) (n : HtmlNode) : Option HtmlNode :=
  n.children.find? (fun m => cn.matches m.classes)

/-- `get_child_nodes_with_classes`: all matching direct children. -/
def HtmlNode.childrenWithClasses (cn : ClassNames) (n : HtmlNode) : List HtmlNode :=
  n.children.filter (fun m => cn.matches m.classes)

/-- `get_attribute`: the value of a non-class, non-id attribute. -/
def HtmlNode.getAttribute (name : String) (n : HtmlNode) : Option String :=
  List.lookup name n.attrs

/-- A parsed document: the forest the facade builds from response text. -/
abbrev Dom := List HtmlNode

/-- Every node of the document, in document order. -/
def domAllNodes (d : Dom) : List HtmlNode :=
  HtmlNode.descendantsList d

/-- `get_first_node_with_classes` on the whole document. -/
def domFirstWithClasses (cn : ClassNames) (d : Dom) : Option HtmlNode :=
  (domAllNodes d).find? (fun m => cn.matches m.classes)

/-- `get_nodes_with_classes` on the whole document. -/
def domNodesWithClasses (cn : ClassNames) (d : Dom) : List HtmlNode :=
  (domAllNodes d).filter (fun m => cn.matches m.classes)

/-- `get_first_node_with_id` on the whole document. -/
def domFirstWithId (i : String) (d : Dom) : Option HtmlNode :=
  (domAllNodes d).find? (fun m => m.idAttr == some i)

/-- The final resolved URL of a raw response (`response.url()`):
`host_str()` and `path()` are all the validators read. -/
structure ResponseUrl where
  host : Option String
  path : String

/-- A raw response as the validators see it: `url` is the final resolved
URL after any provider redirect, not the originally requested one. -/
structure RawResponse where
  url : ResponseUrl

/-! ## The Google adapter (`src/src/google.rs`) -/

def googleSearchResultClasses : ClassNames := .exact ["Gx5Zad", "xpd", "EtOod", "pkphOe"]

def googleTitleClasses : ClassNames := .exact ["egMi0", "kCrYT"]

def googleTitleTextClasses : ClassNames := .exact ["ilUpNd", "UFvD1", "aSRlid"]

def googleSummaryClasses : ClassNames := .exact ["ilUpNd", "H66NU", "aSRlid"]

/-- `DATE_TIME_PRESETS` of `google.rs`, durations in seconds:
1 hour, 24 hours, 1 week, 30 days, 365 days. -/
def googleDateTimePresets : List (Int × String) :=
  [(3600, "h"), (86400, "d"), (604800, "w"), (2592000, "m"), (31536000, "y")]

/-- `filter_search_param_in_result_url` of `google.rs`. -/
def filterSearchParamInResultUrl (key : String) (_value : String) : Bool :=
  key == "ved" || key == "sa" || key == "usg" || strStartsWith key "utm"

/-- Google's redirect unwrap rule: `strip_prefix("/url?q=").unwrap_or(..)`
(`"/url?q="` is 7 characters). -/
def googleUnwrapUrl (href : String) : String :=
  if strStartsWith href "/url?q=" then strDrop href 7 else href

/-- The ordered query parameters of `GoogleEngine::url`
(`page_start_idx = page_num * results_per_page`, 0-based). -/
def googleParams (query : String) (o : SearchOptions) : List (String × String) :=
  let results_per_page := 10
  let page_start_idx := o.page_num * results_per_page
  [("q", query),
   ("ie", "utf8"),
   ("start", Nat.repr page_start_idx),
   ("filter", "0"),
   ("safe", safeSearchLowercase o.safe_search)]

/-- The `&tbs=…` date-range parameter of `GoogleEngine::url`: the closest
preset, since Google's no-js page has no custom ranges. -/
def googleDtParam : Option DateTimeRange → String
  | some r => "&tbs=qdr%3A" ++ findClosestPreset googleDateTimePresets (rangeDurationSecs r)
  | none => ""

/-- `GoogleEngine::url`. -/
def googleUrl (query : String) (o : SearchOptions) : Except SearchError String :=
  .ok ("https://www.google.com/search?" ++ encodeQueryParams (googleParams query o)
        ++ googleDtParam o.date_time_range)

/-- `GoogleEngine::validate_response`: captcha-gated when the final
resolved URL's host is `sorry.google.com` or its path starts `/sorry`. -/
def googleValidateResponse (response : RawResponse) : Except SearchError Unit :=
  let was_captcha_gated :=
    response.url.host == some "sorry.google.com" || strStartsWith response.url.path "/sorry"
  if was_captcha_gated then .error .Captcha else .ok ()

/-- The per-candidate body of `GoogleEngine::parse`'s `filter_map`. -/
def googleExtract (this : HtmlNode) : Option (String × SearchResult) :=
  match this.firstWithClasses googleTitleClasses with
  | none => none
  | some title_node =>
      let title := ((title_node.firstWithClasses googleTitleTextClasses).bind
        (fun n => n.text)).getD ""
      let url := ((title_node.firstWithTag "a").bind
        (fun a => a.href.map googleUnwrapUrl)).getD ""
      let summary := ((this.firstWithClasses googleSummaryClasses).bind
        (fun s => (s.firstWithClasses googleSummaryClasses).bind
          (fun t => t.rawText))).getD ""
      let sanitized_url := sanitizeUrl filterSearchParamInResultUrl url
      some (searchResultFromSanitized title sanitized_url summary)

/-- `GoogleEngine::parse`: card-class search across the whole document,
no results container. -/
def googleParse (dom : Dom) : Except SearchError (List (String × SearchResult)) :=
  .ok ((domNodesWithClasses googleSearchResultClasses dom).filterMap googleExtract)

/-! ## The Bing adapter (`src/src/bing.rs`) -/

def bingSearchResultClasses : ClassNames := .anyOf ["b_algo"]

def bingTitleClasses : ClassNames := .anyOf ["b_algoheader"]

def bingTextSummaryWrapperClasses : ClassNames := .exact ["b_caption", "b_capmedia"]

def bingTextSummaryClasses : ClassNames := .exact ["b_lineclamp3"]

def bingCardSummaryClasses : ClassNames := .exact ["b_cards2", "slide"]

def bingCardSummaryContentClasses : ClassNames := .exact ["exsni"]

/-- Strip the leading `"\u{a0}· "` (3 characters) a Bing text summary may
carry. -/
def bingStripSummary (t : String) : String :=
  if strStartsWith t "\u00A0· " then strDrop t 3 else t

/-- The ordered query parameters of `BingEngine::url`
(`page_start_idx = results_per_page * page_num + 1`, 1-based). -/
def bingParams (query : String) (o : SearchOptions) : List (String × String) :=
  let results_per_page := 10
  let page_start_idx := results_per_page * o.page_num + 1
  [("q", query),
   ("first", Nat.repr page_start_idx),
   ("form", "QBLH"),
   ("safeSearch", safeSearchLowercase o.safe_search)]

/-- The `&filters=…` date-range parameter of `BingEngine::url`: start and
end as day counts since the Unix epoch. -/
def bingDtParam : Option DateTimeRange → String
  | some r =>
      "&filters=ex1%3A%22ez5_" ++ Int.repr (daysFromCivil r.start) ++ "_"
        ++ Int.repr (daysFromCivil r.ending) ++ "%22"
  | none => ""

/-- `BingEngine::url`. -/
def bingUrl (query : String) (o : SearchOptions) : Except SearchError String :=
  .ok ("https://www.bing.com/search?" ++ encodeQueryParams (bingParams query o)
        ++ bingDtParam o.date_time_range)

/-- The per-candidate body of `BingEngine::parse`'s `filter_map`. -/
def bingExtract (this : HtmlNode) : Option (String × SearchResult) :=
  match this.firstWithClasses bingTitleClasses with
  | none => none
  | some title_node =>
      let title := (title_node.text).getD ""
      let url := ((title_node.firstWithTag "a").bind (fun a => a.href)).getD ""
      let summary :=
        match (this.firstWithClasses bingTextSummaryWrapperClasses).bind
            (fun w => (w.firstWithClasses bingTextSummaryClasses).bind
              (fun s => s.rawText.map bingStripSummary)) with
        | some s => s
        | none =>
            ((this.firstWithClasses bingCardSummaryClasses).bind
              (fun c => ((c.childrenWithClasses bingCardSummaryContentClasses).get? 1).bind
                (fun n => n.text))).getD ""
      some (searchResultNew title url summary)

/-- `BingEngine::parse`: card-class search across the whole document,
no results container. -/
def bingParse (dom : Dom) : Except SearchError (List (String × SearchResult)) :=
  .ok ((domNodesWithClasses bingSearchResultClasses dom).filterMap bingExtract)

/-! ## The Brave adapter (`src/src/brave.rs`) -/

def braveSearchResultClasses : ClassNames := .anyOf ["snippet"]

def braveBlocklistedClasses : ClassNames := .anyOf ["noscript-hide", "standalone"]

def braveTitleClasses : ClassNames := .anyOf ["title"]

def braveSummaryClasses : ClassNames := .anyOf ["content"]

def braveSummaryQnaClasses : ClassNames := .anyOf ["inline-qa-answer"]

/-- The `&tf=…` date-range parameter of `BraveEngine::url`:
`year-month-day` endpoints joined by `to`. -/
def braveDtParam : Option DateTimeRange → String
  | some r =>
      "&tf=" ++ Int.repr r.start.year ++ "-" ++ Int.repr r.start.month ++ "-"
        ++ Int.repr r.start.day ++ "to" ++ Int.repr r.ending.year ++ "-"
        ++ Int.repr r.ending.month ++ "-" ++ Int.repr r.ending.day
  | none => ""

/-- The ordered query parameters of `BraveEngine::url` (safe search goes
into a cookie header, not the URL; `offset` is the raw page number). -/
def braveParams (query : String) (o : SearchOptions) : List (String × String) :=
  [("q", query),
   ("offset", Nat.repr o.page_num)]

/-- `BraveEngine::url`. -/
def braveUrl (query : String) (o : SearchOptions) : Except SearchError String :=
  .ok ("https://search.brave.com/search?" ++ encodeQueryParams (braveParams query o)
        ++ braveDtParam o.date_time_range)

/-- The candidate filter of `BraveEngine::parse`: keep a node unless its
`data-type` attribute is present and not `"web"`, its classes hit the
blocklist, or its id is `search_anywhere` or `search-ad`. -/
def braveKeepCandidate (this : HtmlNode) : Bool :=
  (match this.getAttribute "data-type" with
   | some v => v == "web"
   | none => true) &&
  !(braveBlocklistedClasses.matches this.classes) &&
  (match this.idAttr with
   | some i => !(i == "search_anywhere" || i == "search-ad")
   | none => true)

/-- The per-candidate body of `BraveEngine::parse`'s `filter_map`: note it
always returns `some` — a candidate without an anchor or title node yields
an entry with empty title and URL instead of being dropped. -/
def braveExtract (this : HtmlNode) : Option (String × SearchResult) :=
  let titleUrl :=
    match this.firstWithTag "a" with
    | some a =>
        (((a.firstWithClasses braveTitleClasses).bind (fun n => n.text)).getD "",
         (a.href).getD "")
    | none => ("", "")
  let summary :=
    match (this.firstWithClasses braveSummaryClasses).bind (fun n => n.text) with
    | some t => strTrimLeft t
    | none => ((this.firstWithClasses braveSummaryQnaClasses).bind (fun n => n.text)).getD ""
  some (searchResultNew titleUrl.1 titleUrl.2 summary)

/-- The surviving candidates of `BraveEngine::parse`: direct children of
the results container with the snippet class, after the filter. -/
def braveCandidates (results : HtmlNode) : List HtmlNode :=
  (results.childrenWithClasses braveSearchResultClasses).filter braveKeepCandidate

/-- `BraveEngine::parse`: requires the `#results` container; a container
holding a `#bad-results-info-banner` node is also treated as
`NoResultsFound`. -/
def braveParse (dom : Dom) : Except SearchError (List (String × SearchResult)) :=
  match domFirstWithId "results" dom with
  | none => .error .NoResultsFound
  | some results =>
      if (results.firstWithId "bad-results-info-banner").isSome then
        .error .NoResultsFound
      else
        .ok ((braveCandidates results).filterMap braveExtract)

/-! ## The Mojeek adapter (`src/src/mojeek.rs`) -/

def mojeekWrapperClasses : ClassNames := .anyOf ["results-standard"]

def mojeekTitleClasses : ClassNames := .anyOf ["title"]

def mojeekSummaryClasses : ClassNames := .anyOf ["s"]

/-- The `qss` sources list of `MojeekEngine::url`, joined with `+`
(the spec's `+`-joined fixed list of secondary sources). -/
def mojeekQss : String :=
  "Bing+Brave+DuckDuckGo+Ecosia+Google+Lilo+Metager+Qwant+Startpage+Swisscows+Yandex+Yep+You"

/-- The `since`/`before` range appended to Mojeek's `q` parameter value
(already `%`-escaped in the source, then encoded again by the parameter
encoder). -/
def mojeekDtParam : Option DateTimeRange → String
  | some r =>
      "%20since%3A" ++ padInt 4 r.start.year ++ padInt 2 r.start.month
        ++ padInt 2 r.start.day
        ++ "%20before%3A" ++ padInt 4 r.ending.year ++ padInt 2 r.ending.month
        ++ padInt 2 r.ending.day
  | none => ""

/-- The ordered query parameters of `MojeekEngine::url`
(`page_start_idx = RESULTS_PER_PAGE * page_num + 1`, 1-based). -/
def mojeekParams (query : String) (o : SearchOptions) : List (String × String) :=
  let page_start_idx := 10 * o.page_num + 1
  [("q", query ++ mojeekDtParam o.date_time_range),
   ("t", Nat.repr page_start_idx),
   ("safe", Nat.repr (safeSearchU8Bool o.safe_search)),
   ("theme", "dark"),
   ("arc", "none"),
   ("date", "1"),
   ("cdate", "1"),
   ("tlen", "100"),
   ("ref", "1"),
   ("hp", "minimal"),
   ("lb", "en"),
   ("qss", mojeekQss)]

/-- `MojeekEngine::url`. -/
def mojeekUrl (query : String) (o : SearchOptions) : Except SearchError String :=
  .ok ("https://www.mojeek.com/search?" ++ encodeQueryParams (mojeekParams query o))

/-- The per-candidate body of `MojeekEngine::parse`'s `filter_map`: a
candidate without an `h2` child, or whose `h2` has no title-class child,
is dropped. -/
def mojeekExtract (this : HtmlNode) : Option (String × SearchResult) :=
  match this.firstChildWithTag "h2" with
  | none => none
  | some title_node_outer =>
      match title_node_outer.firstChildWithClasses mojeekTitleClasses with
      | none => none
      | some title_node =>
          let title := (title_node.text).getD ""
          let url := (title_node.href).getD ""
          let summary :=
            ((this.firstChildWithClasses mojeekSummaryClasses).bind
              (fun n => n.text)).getD ""
          some (searchResultNew title url summary)

/-- `MojeekEngine::parse`: requires the `results-standard` container; its
direct children are the candidates. -/
def mojeekParse (dom : Dom) : Except SearchError (List (String × SearchResult)) :=
  match domFirstWithClasses mojeekWrapperClasses dom with
  | none => .error .NoResultsFound
  | some node => .ok (node.children.filterMap mojeekExtract)

/-! ## The Yahoo adapter (`src/src/yahoo.rs`) -/

def yahooWrapperClasses : ClassNames := .anyOf ["searchCenterMiddle"]

def yahooSearchResultClasses : ClassNames := .anyOf ["dd"]

def yahooBlocklistedClasses : ClassNames := .anyOf ["AlsoTry_M"]

def yahooTitleClasses : ClassNames := .anyOf ["s-title"]

def yahooSummaryClasses : ClassNames := .anyOf ["s-desc"]

/-- `DATE_TIME_PRESETS` of `yahoo.rs`, durations in seconds: 24 hours,
1 week, 30 days. -/
def yahooDateTimePresets : List (Int × String) :=
  [(86400, "d"), (604800, "w"), (2592000, "m")]

/-- The `&v=…`/`&vm=…` safe-search parameter of `YahooEngine::url`. -/
def yahooSafeSearchParam : SafeSearch → String
  | .Off => "&v=1"
  | .Moderate => "&vm=p"
  | .Strict => "&vm=r"

/-- The ordered query parameters of `YahooEngine::url`
(`page_start_idx = results_per_page * page_num + 1`, 1-based). -/
def yahooParams (query : String) (o : SearchOptions) : List (String × String) :=
  let results_per_page := 10
  let page_start_idx := results_per_page * o.page_num + 1
  [("p", query),
   ("b", Nat.repr page_start_idx),
   ("nocache", "1"),
   ("nojs", "1")]

/-- The `&btf=…` date-range parameter of `YahooEngine::url`: the closest
preset, since Yahoo has no custom ranges. -/
def yahooDtParam : Option DateTimeRange → String
  | some r => "&btf=" ++ findClosestPreset yahooDateTimePresets (rangeDurationSecs r)
  | none => ""

/-- `YahooEngine::url`. -/
def yahooUrl (query : String) (o : SearchOptions) : Except SearchError String :=
  .ok ("https://search.yahoo.com/search?" ++ encodeQueryParams (yahooParams query o)
        ++ yahooSafeSearchParam o.safe_search ++ yahooDtParam o.date_time_range)

/-- First index at or after offset `i` at which `pat` occurs as a
contiguous sub-list. -/
def findSubAux (pat : List Nat) : List Nat → Nat → Option Nat
  | [], i => if pat.isPrefixOf ([] : List Nat) then some i else none
  | x :: t, i =>
      if pat.isPrefixOf (x :: t) then some i else findSubAux pat t (i + 1)

/-- First index at which `pat` occurs as a contiguous sub-list
(Rust `str::find` over UTF-8 bytes). -/
def findSub (pat l : List Nat) : Option Nat :=
  findSubAux pat l 0

/-- The characters of a string whose UTF-8 bytes lie inside the byte range
`[b, e)`; `pos` is the byte offset of the first character. -/
def takeByteRange (b e : Nat) : List Char → Nat → List Char
  | [], _ => []
  | c :: cs, pos =>
      let w := (utf8Bytes c).length
      (if b ≤ pos && pos + w ≤ e then [c] else []) ++ takeByteRange b e cs (pos + w)

/-- `clean_url` of `yahoo.rs`.  Rust's `str::find` yields byte indices and
the function slices `input_url[start_idx + 3 ..= end_idx - 1]`: the slice
runs from just past the first `"RU="` to just before the first `"RK=2"`.
Both slice boundaries are at the edge of an ASCII marker, hence always on
a character boundary; but when `end_idx < start_idx + 3` the Rust slice
panics (`end_idx - 1` underflows `usize` when `end_idx = 0`, and the slice
start exceeds its end otherwise), modelled here as `none`. -/
def cleanUrl (input_url : String) : Option String :=
  let bytes := strBytes input_url
  match findSub (strBytes "RU=") bytes with
  | none => some input_url
  | some start_idx =>
      match findSub (strBytes "RK=2") bytes with
      | none => some input_url
      | some end_idx =>
          if start_idx + 3 ≤ end_idx then
            some ⟨takeByteRange (start_idx + 3) end_idx input_url.data 0⟩
          else
            none

/-- The per-candidate body of `YahooEngine::parse`'s `filter_map`.  The
outer `Option` models the Rust call completing without a panic (`none` =
`clean_url` panicked); the inner `Option` is the `filter_map`'s keep/drop:
a candidate without a title-class node is dropped. -/
def yahooExtract (this : HtmlNode) : Option (Option (String × SearchResult)) :=
  match this.firstWithClasses yahooTitleClasses with
  | none => some none
  | some title_node =>
      let title := (title_node.rawText).getD ""
      let summary :=
        ((this.firstWithClasses yahooSummaryClasses).bind (fun n => n.text)).getD ""
      match title_node.href with
      | none => some (some (searchResultNew title "" summary))
      | some h => (cleanUrl h).map (fun u => some (searchResultNew title u summary))

/-- The `filter_map` of `YahooEngine::parse` over the candidate list,
propagating a panic (`none`) from any candidate. -/
def yahooExtractList : List HtmlNode → Option (List (String × SearchResult))
  | [] => some []
  | n :: rest =>
      match yahooExtract n with
      | none => none
      | some none => yahooExtractList rest
      | some (some e) => (yahooExtractList rest).map (fun l => e :: l)

/-- The surviving candidates of `YahooEngine::parse`: `dd`-class
descendants of the container, minus the `AlsoTry_M` suggestion rows. -/
def yahooCandidates (results : HtmlNode) : List HtmlNode :=
  (results.allWithClasses yahooSearchResultClasses).filter
    (fun n => !(yahooBlocklistedClasses.matches n.classes))

/-- `YahooEngine::parse`: requires the `searchCenterMiddle` container.
The outer `Option` models completion without a panic from `clean_url`. -/
def yahooParse (dom : Dom) : Option (Except SearchError (List (String × SearchResult))) :=
  match domFirstWithClasses yahooWrapperClasses dom with
  | none => some (.error .NoResultsFound)
  | some results => (yahooExtractList (yahooCandidates results)).map .ok

/-! ## The Yandex adapter (`src/src/yandex.rs`) -/

def yandexWrapperClasses : ClassNames := .anyOf ["b-serp-list"]

def yandexSearchResultClasses : ClassNames := .anyOf ["b-serp-item"]

def yandexTitleClasses : ClassNames := .anyOf ["b-serp-item__title-link"]

def yandexSummaryClasses : ClassNames := .anyOf ["b-serp-item__text"]

/-- `SEARCH_ID` of `yandex.rs`. -/
def yandexSearchId : String := "3131712"

/-- The date-range parameter block of `YandexEngine::url` (appended with
no separating `&`, exactly as the source formats it). -/
def yandexDtParam : Option DateTimeRange → String
  | some r =>
      "constraintid=0&within=777&from_day=" ++ Int.repr r.start.day
        ++ "&from_month=" ++ Int.repr r.start.month
        ++ "&from_year=" ++ Int.repr r.start.year
        ++ "&to_day=" ++ Int.repr r.ending.day
        ++ "&to_month=" ++ Int.repr r.ending.month
        ++ "&to_year=" ++ Int.repr r.ending.year
  | none => ""

/-- The ordered query parameters of `YandexEngine::url` (`p` is the raw
page number). -/
def yandexParams (query : String) (o : SearchOptions) : List (String × String) :=
  [("text", query),
   ("p", Nat.repr o.page_num),
   ("tmpl_version", "releases"),
   ("web", "1"),
   ("frame", "1"),
   ("searchid", yandexSearchId)]

/-- `YandexEngine::url`: rejects the strictest safe-search level with
`SafeSearchRestriction`; note the source interpolates the whole encoded
parameter string after a literal `?text=`. -/
def yandexUrl (query : String) (o : SearchOptions) : Except SearchError String :=
  if safeSearchIncrementing o.safe_search == 2 then
    .error .SafeSearchRestriction
  else
    .ok ("https://yandex.com/search/site/?text=" ++ encodeQueryParams (yandexParams query o)
          ++ yandexDtParam o.date_time_range)

/-- `YandexEngine::validate_response`: captcha-gated when the final
resolved URL's path starts `/showcaptcha`. -/
def yandexValidateResponse (response : RawResponse) : Except SearchError Unit :=
  if strStartsWith response.url.path "/showcaptcha" then .error .Captcha else .ok ()

/-- Modelled from the spec: the default `validate_response` of the
`Engine` trait in `quaero_shared` — the four adapters that do not override
it (Bing, Brave, Mojeek, Yahoo) treat every response as valid. -/
def defaultValidateResponse (_response : RawResponse) : Except SearchError Unit :=
  .ok ()

/-- The per-candidate body of `YandexEngine::parse`'s `filter_map`. -/
def yandexExtract (this : HtmlNode) : Option (String × SearchResult) :=
  match this.firstWithClasses yandexTitleClasses with
  | none => none
  | some title_node =>
      let title := (title_node.text).getD ""
      let url := (title_node.href).getD ""
      let summary :=
        ((this.firstWithClasses yandexSummaryClasses).bind (fun n => n.text)).getD ""
      some (searchResultNew title url summary)

/-- `YandexEngine::parse`: requires the `b-serp-list` container; its
`b-serp-item` descendants are the candidates. -/
def yandexParse (dom : Dom) : Except SearchError (List (String × SearchResult)) :=
  match domFirstWithClasses yandexWrapperClasses dom with
  | none => .error .NoResultsFound
  | some results => .ok ((results.allWithClasses yandexSearchResultClasses).filterMap yandexExtract)

/-! ## General lemmas: characters of the encoded output -/

theorem strAll_append (p : Char → Bool) (a b : String) :
    strAll p (a ++ b) = (strAll p a && strAll p b) := by
  simp [strAll, String.data_append, List.all_append]

theorem toDigitsCore_all (p : Char → Bool) (hdig : ∀ r : Fin 10, p (Nat.digitChar r) = true) :
    ∀ (fuel n : Nat) (ds : List Char), ds.all p = true →
      (Nat.toDigitsCore 10 fuel n ds).all p = true := by
  intro fuel
  induction fuel with
  | zero => intro n ds h; simpa [Nat.toDigitsCore] using h
  | succ f ih =>
      intro n ds h
      have hd : p ((n % 10).digitChar) = true := by
        have h10 : n % 10 < 10 := Nat.mod_lt _ (by omega)
        simpa using hdig ⟨n % 10, h10⟩
      simp only [Nat.toDigitsCore]
      split
      · simp [hd, h]
      · exact ih _ _ (by simp [hd, h])

theorem natRepr_all (p : Char → Bool) (hdig : ∀ r : Fin 10, p (Nat.digitChar r) = true)
    (n : Nat) : strAll p (Nat.repr n) = true := by
  have := toDigitsCore_all p hdig (n + 1) n [] (by simp)
  simpa [strAll, Nat.repr, Nat.toDigits, List.asString] using this

theorem natRepr_urlAllowed (n : Nat) : strAll urlAllowedChar (Nat.repr n) = true :=
  natRepr_all urlAllowedChar (by decide) n

theorem intRepr_urlAllowed (i : Int) : strAll urlAllowedChar (Int.repr i) = true := by
  cases i with
  | ofNat m => simpa [Int.repr] using natRepr_urlAllowed m
  | negSucc m =>
      have h1 : strAll urlAllowedChar "-" = true := by decide
      have h2 := natRepr_urlAllowed (m + 1)
      simp [Int.repr, strAll_append, h1, h2, Nat.succ_eq_add_one]

set_option maxRecDepth 4000 in
theorem encodeByte_urlAllowed (b : Nat) : (encodeByte b).all urlAllowedChar = true := by
  have hfin : ∀ r : Fin 256, (encodeByte r.val).all urlAllowedChar = true := by decide
  have hlt : b % 256 < 256 := Nat.mod_lt _ (by omega)
  have hmm : b % 256 % 256 = b % 256 := by omega
  have := hfin ⟨b % 256, hlt⟩
  simpa [encodeByte, hmm] using this

theorem flatMapEncode_urlAllowed (bs : List Nat) :
    ((bs.flatMap encodeByte).all urlAllowedChar) = true := by
  induction bs with
  | nil => simp
  | cons b rest ih => simp [List.flatMap_cons, List.all_append, encodeByte_urlAllowed b, ih]

theorem percentEncode_urlAllowed (s : String) :
    strAll urlAllowedChar (percentEncode s) = true := by
  simpa [percentEncode, strAll] using flatMapEncode_urlAllowed (strBytes s)

theorem strBytes_append (a b : String) : strBytes (a ++ b) = strBytes a ++ strBytes b := by
  simp [strBytes, String.data_append, List.flatMap_append]

theorem percentEncode_append (a b : String) :
    percentEncode (a ++ b) = percentEncode a ++ percentEncode b := by
  have h : (percentEncode a ++ percentEncode b).data
      = (strBytes a).flatMap encodeByte ++ (strBytes b).flatMap encodeByte := by
    simp [percentEncode, String.data_append]
  apply String.ext
  simp [percentEncode, h, strBytes_append, List.flatMap_append]

/-! ## Lemmas on the closest-preset choice -/

/-- `chosen` is a preset of the list whose duration is closest to `d`,
with ties going to the smaller duration. -/
def isClosestPresetChoice (presets : List (Int × String)) (d : Int)
    (chosen : Int × String) : Prop :=
  chosen ∈ presets ∧ ∀ q ∈ presets,
    (chosen.1 - d).natAbs < (q.1 - d).natAbs ∨
      ((chosen.1 - d).natAbs = (q.1 - d).natAbs ∧ chosen.1 ≤ q.1)

set_option maxHeartbeats 1000000 in
theorem closestChoice_google (d : Int) :
    isClosestPresetChoice googleDateTimePresets d
      (findClosestPresetPair googleDateTimePresets d) := by
  simp only [findClosestPresetPair, googleDateTimePresets, List.foldl]
  split_ifs <;>
    refine ⟨by simp, ?_⟩ <;>
      (intro q hq
       simp only [List.mem_cons] at hq
       rcases hq with rfl | rfl | rfl | rfl | rfl | h
       <;> first
         | (dsimp only; omega)
         | simp_all)

set_option maxHeartbeats 1000000 in
theorem closestChoice_yahoo (d : Int) :
    isClosestPresetChoice yahooDateTimePresets d
      (findClosestPresetPair yahooDateTimePresets d) := by
  simp only [findClosestPresetPair, yahooDateTimePresets, List.foldl]
  split_ifs <;>
    refine ⟨by simp, ?_⟩ <;>
      (intro q hq
       simp only [List.mem_cons] at hq
       rcases hq with rfl | rfl | rfl | h
       <;> first
         | (dsimp only; omega)
         | simp_all)

theorem googleLabel_urlAllowed (d : Int) :
    strAll urlAllowedChar (findClosestPreset googleDateTimePresets d) = true := by
  have h := (closestChoice_google d).1
  simp only [googleDateTimePresets, List.mem_cons, List.not_mem_nil, or_false] at h
  rcases h with h | h | h | h | h <;>
    (simp only [findClosestPreset, googleDateTimePresets, h]; decide)

theorem yahooLabel_urlAllowed (d : Int) :
    strAll urlAllowedChar (findClosestPreset yahooDateTimePresets d) = true := by
  have h := (closestChoice_yahoo d).1
  simp only [yahooDateTimePresets, List.mem_cons, List.not_mem_nil, or_false] at h
  rcases h with h | h | h <;>
    (simp only [findClosestPreset, yahooDateTimePresets, h]; decide)

/-! ## Lemmas on URL construction -/

theorem url_split (base key rest dt pre x : String) (hpre : base ++ (key ++ "=") = pre) :
    base ++ (key ++ "=" ++ x ++ "&" ++ rest) ++ dt
      = pre ++ x ++ ("&" ++ rest ++ dt) := by
  simp only [← hpre, String.append_assoc]

theorem encodeQueryParams_urlAllowed :
    ∀ ps : List (String × String),
      (ps.all (fun kv => strAll urlAllowedChar kv.1)) = true →
      strAll urlAllowedChar (encodeQueryParams ps) = true
  | [], _ => by decide
  | [kv], h => by
      simp only [List.all_cons, List.all_nil, Bool.and_true] at h
      have he : strAll urlAllowedChar "=" = true := by decide
      simp [encodeQueryParams, strAll_append, h, he, percentEncode_urlAllowed]
  | kv :: kv2 :: rest, h => by
      simp only [List.all_cons, Bool.and_eq_true] at h
      have ih := encodeQueryParams_urlAllowed (kv2 :: rest) (by simp [h.2.1, h.2.2])
      have he : strAll urlAllowedChar "=" = true := by decide
      have ha : strAll urlAllowedChar "&" = true := by decide
      simp [encodeQueryParams, strAll_append, h.1, he, ha, percentEncode_urlAllowed, ih]

theorem bingDtParam_urlAllowed (r : Option DateTimeRange) :
    strAll urlAllowedChar (bingDtParam r) = true := by
  cases r with
  | none => decide
  | some rr =>
      simp [bingDtParam, strAll_append, intRepr_urlAllowed]
      decide

theorem braveDtParam_urlAllowed (r : Option DateTimeRange) :
    strAll urlAllowedChar (braveDtParam r) = true := by
  cases r with
  | none => decide
  | some rr =>
      simp [braveDtParam, strAll_append, intRepr_urlAllowed]
      decide

theorem yandexDtParam_urlAllowed (r : Option DateTimeRange) :
    strAll urlAllowedChar (yandexDtParam r) = true := by
  cases r with
  | none => decide
  | some rr =>
      simp [yandexDtParam, strAll_append, intRepr_urlAllowed]
      decide

theorem googleDtParam_urlAllowed (r : Option DateTimeRange) :
    strAll urlAllowedChar (googleDtParam r) = true := by
  cases r with
  | none => decide
  | some rr =>
      simp [googleDtParam, strAll_append, googleLabel_urlAllowed]
      decide

theorem yahooDtParam_urlAllowed (r : Option DateTimeRange) :
    strAll urlAllowedChar (yahooDtParam r) = true := by
  cases r with
  | none => decide
  | some rr =>
      simp [yahooDtParam, strAll_append, yahooLabel_urlAllowed]
      decide

theorem yahooSafeSearchParam_urlAllowed (ss : SafeSearch) :
    strAll urlAllowedChar (yahooSafeSearchParam ss) = true := by
  cases ss <;> decide

theorem url_split0 (base key rest pre x : String) (hpre : base ++ (key ++ "=") = pre) :
    base ++ (key ++ "=" ++ x ++ "&" ++ rest) = pre ++ x ++ ("&" ++ rest) := by
  simp only [← hpre, String.append_assoc]

theorem url_split2 (base key rest t1 t2 pre x : String) (hpre : base ++ (key ++ "=") = pre) :
    base ++ (key ++ "=" ++ x ++ "&" ++ rest) ++ t1 ++ t2
      = pre ++ x ++ ("&" ++ rest ++ t1 ++ t2) := by
  simp only [← hpre, String.append_assoc]

theorem bingUrl_shape (q : String) (o : SearchOptions) :
    ∃ s, bingUrl q o = .ok ("https://www.bing.com/search?q=" ++ percentEncode q ++ s)
      ∧ strAll urlAllowedChar s = true := by
  refine ⟨"&" ++ encodeQueryParams
      [("first", Nat.repr (10 * o.page_num + 1)), ("form", "QBLH"),
       ("safeSearch", safeSearchLowercase o.safe_search)]
      ++ bingDtParam o.date_time_range,
    congrArg Except.ok (url_split _ "q" _ _ _ _ rfl), ?_⟩
  have ha : strAll urlAllowedChar "&" = true := by decide
  have hk : strAll urlAllowedChar (encodeQueryParams
      [("first", Nat.repr (10 * o.page_num + 1)), ("form", "QBLH"),
       ("safeSearch", safeSearchLowercase o.safe_search)]) = true := by
    refine encodeQueryParams_urlAllowed _ (List.all_eq_true.mpr ?_)
    intro kv hkv
    simp only [List.mem_cons, List.not_mem_nil, or_false] at hkv
    rcases hkv with rfl | rfl | rfl <;> (dsimp only; decide)
  simp [strAll_append, ha, hk, bingDtParam_urlAllowed]

theorem googleUrl_shape (q : String) (o : SearchOptions) :
    ∃ s, googleUrl q o = .ok ("https://www.google.com/search?q=" ++ percentEncode q ++ s)
      ∧ strAll urlAllowedChar s = true := by
  refine ⟨"&" ++ encodeQueryParams
      [("ie", "utf8"), ("start", Nat.repr (o.page_num * 10)), ("filter", "0"),
       ("safe", safeSearchLowercase o.safe_search)]
      ++ googleDtParam o.date_time_range,
    congrArg Except.ok (url_split _ "q" _ _ _ _ rfl), ?_⟩
  have ha : strAll urlAllowedChar "&" = true := by decide
  have hk : strAll urlAllowedChar (encodeQueryParams
      [("ie", "utf8"), ("start", Nat.repr (o.page_num * 10)), ("filter", "0"),
       ("safe", safeSearchLowercase o.safe_search)]) = true := by
    refine encodeQueryParams_urlAllowed _ (List.all_eq_true.mpr ?_)
    intro kv hkv
    simp only [List.mem_cons, List.not_mem_nil, or_false] at hkv
    rcases hkv with rfl | rfl | rfl | rfl <;> (dsimp only; decide)
  simp [strAll_append, ha, hk, googleDtParam_urlAllowed]

theorem braveUrl_shape (q : String) (o : SearchOptions) :
    ∃ s, braveUrl q o = .ok ("https://search.brave.com/search?q=" ++ percentEncode q ++ s)
      ∧ strAll urlAllowedChar s = true := by
  refine ⟨"&" ++ encodeQueryParams [("offset", Nat.repr o.page_num)]
      ++ braveDtParam o.date_time_range,
    congrArg Except.ok (url_split _ "q" _ _ _ _ rfl), ?_⟩
  have ha : strAll urlAllowedChar "&" = true := by decide
  have hk : strAll urlAllowedChar (encodeQueryParams [("offset", Nat.repr o.page_num)]) = true := by
    refine encodeQueryParams_urlAllowed _ (List.all_eq_true.mpr ?_)
    intro kv hkv
    simp only [List.mem_cons, List.not_mem_nil, or_false] at hkv
    rcases hkv with rfl
    dsimp only
    decide
  simp [strAll_append, ha, hk, braveDtParam_urlAllowed]

theorem yahooUrl_shape (q : String) (o : SearchOptions) :
    ∃ s, yahooUrl q o = .ok ("https://search.yahoo.com/search?p=" ++ percentEncode q ++ s)
      ∧ strAll urlAllowedChar s = true := by
  refine ⟨"&" ++ encodeQueryParams
      [("b", Nat.repr (10 * o.page_num + 1)), ("nocache", "1"), ("nojs", "1")]
      ++ yahooSafeSearchParam o.safe_search ++ yahooDtParam o.date_time_range,
    congrArg Except.ok (url_split2 _ "p" _ _ _ _ _ rfl), ?_⟩
  have ha : strAll urlAllowedChar "&" = true := by decide
  have hk : strAll urlAllowedChar (encodeQueryParams
      [("b", Nat.repr (10 * o.page_num + 1)), ("nocache", "1"), ("nojs", "1")]) = true := by
    refine encodeQueryParams_urlAllowed _ (List.all_eq_true.mpr ?_)
    intro kv hkv
    simp only [List.mem_cons, List.not_mem_nil, or_false] at hkv
    rcases hkv with rfl | rfl | rfl <;> (dsimp only; decide)
  simp [strAll_append, ha, hk, yahooSafeSearchParam_urlAllowed, yahooDtParam_urlAllowed]

theorem yandexUrlOk_shape (q : String) (o : SearchOptions)
    (h : safeSearchIncrementing o.safe_search ≠ 2) :
    ∃ s, yandexUrl q o
        = .ok ("https://yandex.com/search/site/?text=text=" ++ percentEncode q ++ s)
      ∧ strAll urlAllowedChar s = true := by
  refine ⟨"&" ++ encodeQueryParams
      [("p", Nat.repr o.page_num), ("tmpl_version", "releases"), ("web", "1"),
       ("frame", "1"), ("searchid", yandexSearchId)]
      ++ yandexDtParam o.date_time_range, ?_, ?_⟩
  · obtain ⟨pn, ss, r⟩ := o
    cases ss with
    | Strict => exact absurd rfl h
    | Off => exact congrArg Except.ok (url_split _ "text" _ _ _ _ rfl)
    | Moderate => exact congrArg Except.ok (url_split _ "text" _ _ _ _ rfl)
  · have ha : strAll urlAllowedChar "&" = true := by decide
    have hk : strAll urlAllowedChar (encodeQueryParams
        [("p", Nat.repr o.page_num), ("tmpl_version", "releases"), ("web", "1"),
         ("frame", "1"), ("searchid", yandexSearchId)]) = true := by
      refine encodeQueryParams_urlAllowed _ (List.all_eq_true.mpr ?_)
      intro kv hkv
      simp only [List.mem_cons, List.not_mem_nil, or_false] at hkv
      rcases hkv with rfl | rfl | rfl | rfl | rfl <;> (dsimp only; decide)
    simp [strAll_append, ha, hk, yandexDtParam_urlAllowed]

theorem mojeekUrl_shape (q : String) (o : SearchOptions) :
    ∃ s, mojeekUrl q o = .ok ("https://www.mojeek.com/search?q=" ++ percentEncode q ++ s)
      ∧ strAll urlAllowedChar s = true := by
  refine ⟨percentEncode (mojeekDtParam o.date_time_range) ++ ("&" ++ encodeQueryParams
      [("t", Nat.repr (10 * o.page_num + 1)), ("safe", Nat.repr (safeSearchU8Bool o.safe_search)),
       ("theme", "dark"), ("arc", "none"), ("date", "1"), ("cdate", "1"), ("tlen", "100"),
       ("ref", "1"), ("hp", "minimal"), ("lb", "en"), ("qss", mojeekQss)]), ?_, ?_⟩
  · have h := url_split0 "https://www.mojeek.com/search?" "q"
      (encodeQueryParams
        [("t", Nat.repr (10 * o.page_num + 1)), ("safe", Nat.repr (safeSearchU8Bool o.safe_search)),
         ("theme", "dark"), ("arc", "none"), ("date", "1"), ("cdate", "1"), ("tlen", "100"),
         ("ref", "1"), ("hp", "minimal"), ("lb", "en"), ("qss", mojeekQss)])
      "https://www.mojeek.com/search?q="
      (percentEncode (q ++ mojeekDtParam o.date_time_range)) rfl
    refine (congrArg Except.ok ?_ : _ = _)
    calc "https://www.mojeek.com/search?" ++ encodeQueryParams (mojeekParams q o)
        = "https://www.mojeek.com/search?q="
            ++ percentEncode (q ++ mojeekDtParam o.date_time_range)
            ++ ("&" ++ encodeQueryParams
              [("t", Nat.repr (10 * o.page_num + 1)),
               ("safe", Nat.repr (safeSearchU8Bool o.safe_search)),
               ("theme", "dark"), ("arc", "none"), ("date", "1"), ("cdate", "1"), ("tlen", "100"),
               ("ref", "1"), ("hp", "minimal"), ("lb", "en"), ("qss", mojeekQss)]) := h
      _ = _ := by rw [percentEncode_append]; simp [String.append_assoc]
  · have ha : strAll urlAllowedChar "&" = true := by decide
    have hk : strAll urlAllowedChar (encodeQueryParams
        [("t", Nat.repr (10 * o.page_num + 1)), ("safe", Nat.repr (safeSearchU8Bool o.safe_search)),
         ("theme", "dark"), ("arc", "none"), ("date", "1"), ("cdate", "1"), ("tlen", "100"),
         ("ref", "1"), ("hp", "minimal"), ("lb", "en"), ("qss", mojeekQss)]) = true := by
      refine encodeQueryParams_urlAllowed _ (List.all_eq_true.mpr ?_)
      intro kv hkv
      simp only [List.mem_cons, List.not_mem_nil, or_false] at hkv
      rcases hkv with rfl | rfl | rfl | rfl | rfl | rfl | rfl | rfl | rfl | rfl | rfl <;>
        (dsimp only; decide)
    simp [strAll_append, ha, hk, percentEncode_urlAllowed]

/-! ## C1 — dropped candidates and mandatory titles -/

/-- A Brave result candidate with no anchor, no title node and no content:
only its `snippet` class matches. -/
def braveBareSnippet : HtmlNode := .mk "div" none ["snippet"] [] none none none []

/-- A Brave document whose `#results` container holds just the bare
snippet. -/
def braveNoTitleDom : Dom :=
  [.mk "div" (some "results") [] [] none none none [braveBareSnippet]]

/-- C1, counterexample.  The claim says every adapter drops a candidate in
which no title node is found and returns no entry with an empty title in
its place.  Brave does not: on a document whose only candidate has no
anchor and no title node, `BraveEngine::parse` returns that candidate as
an entry whose title (and URL) is the empty string. -/
theorem c1_counterexample :
    braveParse braveNoTitleDom = .ok [("", ⟨"", "", ""⟩)]
      ∧ braveBareSnippet.firstWithTag "a" = none
      ∧ braveBareSnippet.firstWithClasses braveTitleClasses = none
      ∧ braveCandidates (.mk "div" (some "results") [] [] none none none [braveBareSnippet])
          = [braveBareSnippet] :=
  ⟨rfl, rfl, rfl, rfl⟩

/-- C1, amended.  For the five adapters other than Brave (Google, Bing,
Mojeek, Yahoo, Yandex) every candidate in which no title node is located
is dropped, and every returned entry comes from a candidate with a located
title node; Brave instead keeps every surviving candidate, substituting
empty strings when the title node is missing.  (For Yahoo, `some none` is
"completed without a panic and dropped the candidate".) -/
theorem c1_amended_theorem (c : HtmlNode) :
    (c.firstWithClasses googleTitleClasses = none → googleExtract c = none)
    ∧ (∀ e, googleExtract c = some e → (c.firstWithClasses googleTitleClasses).isSome = true)
    ∧ (c.firstWithClasses bingTitleClasses = none → bingExtract c = none)
    ∧ (∀ e, bingExtract c = some e → (c.firstWithClasses bingTitleClasses).isSome = true)
    ∧ (c.firstChildWithTag "h2" = none → mojeekExtract c = none)
    ∧ (∀ h2n, c.firstChildWithTag "h2" = some h2n →
        h2n.firstChildWithClasses mojeekTitleClasses = none → mojeekExtract c = none)
    ∧ (∀ e, mojeekExtract c = some e → ∃ h2n tn, c.firstChildWithTag "h2" = some h2n
        ∧ h2n.firstChildWithClasses mojeekTitleClasses = some tn)
    ∧ (c.firstWithClasses yahooTitleClasses = none → yahooExtract c = some none)
    ∧ (∀ e, yahooExtract c = some (some e) → (c.firstWithClasses yahooTitleClasses).isSome = true)
    ∧ (c.firstWithClasses yandexTitleClasses = none → yandexExtract c = none)
    ∧ (∀ e, yandexExtract c = some e → (c.firstWithClasses yandexTitleClasses).isSome = true)
    ∧ (braveExtract c).isSome = true := by
  refine ⟨fun h => by simp [googleExtract, h], fun e he => ?_,
          fun h => by simp [bingExtract, h], fun e he => ?_,
          fun h => by simp [mojeekExtract, h],
          fun h2n hh hnone => by simp [mojeekExtract, hh, hnone],
          fun e he => ?_,
          fun h => by simp [yahooExtract, h], fun e he => ?_,
          fun h => by simp [yandexExtract, h], fun e he => ?_,
          by simp [braveExtract]⟩
  · cases hc : c.firstWithClasses googleTitleClasses with
    | none => simp [googleExtract, hc] at he
    | some tn => simp [hc]
  · cases hc : c.firstWithClasses bingTitleClasses with
    | none => simp [bingExtract, hc] at he
    | some tn => simp [hc]
  · cases h2 : c.firstChildWithTag "h2" with
    | none => simp [mojeekExtract, h2] at he
    | some h2n =>
        cases ht : h2n.firstChildWithClasses mojeekTitleClasses with
        | none => simp [mojeekExtract, h2, ht] at he
        | some tn => exact ⟨h2n, tn, rfl, ht⟩
  · cases hc : c.firstWithClasses yahooTitleClasses with
    | none => simp [yahooExtract, hc] at he
    | some tn => simp [hc]
  · cases hc : c.firstWithClasses yandexTitleClasses with
    | none => simp [yandexExtract, hc] at he
    | some tn => simp [hc]

/-! ## C2 — `NoResultsFound` and the results container -/

/-- Brave's "bad results" banner node. -/
def braveBannerNode : HtmlNode := .mk "div" (some "bad-results-info-banner") [] [] none none none []

/-- A Brave `#results` container that holds the banner. -/
def braveBannerContainer : HtmlNode :=
  .mk "div" (some "results") [] [] none none none [braveBannerNode]

/-- A document in which Brave's results container is present but carries
the banner. -/
def braveBannerDom : Dom := [braveBannerContainer]

/-- C2, counterexample.  The claim says `NoResultsFound` is returned iff
the results container is absent.  For Brave this fails: on a document
whose `#results` container is present but holds a
`#bad-results-info-banner` node, `parse` still returns `NoResultsFound`. -/
theorem c2_counterexample :
    braveParse braveBannerDom = .error .NoResultsFound
      ∧ domFirstWithId "results" braveBannerDom = some braveBannerContainer :=
  ⟨rfl, rfl⟩

/-- C2, amended.  For Mojeek, Yahoo and Yandex, `parse` returns
`NoResultsFound` iff the provider's results container is absent; for
Brave it returns `NoResultsFound` iff the `#results` container is absent
*or* the container holds a `#bad-results-info-banner` node.  In every
adapter, a present container (for Brave: without the banner) whose
candidate list is empty after filtering yields success with the empty
list.  (Yahoo's `some` wraps "completed without a panic".) -/
theorem c2_amended_theorem (dom : Dom) :
    (mojeekParse dom = .error .NoResultsFound
      ↔ domFirstWithClasses mojeekWrapperClasses dom = none)
    ∧ (yahooParse dom = some (.error .NoResultsFound)
      ↔ domFirstWithClasses yahooWrapperClasses dom = none)
    ∧ (yandexParse dom = .error .NoResultsFound
      ↔ domFirstWithClasses yandexWrapperClasses dom = none)
    ∧ (braveParse dom = .error .NoResultsFound
      ↔ (domFirstWithId "results" dom = none
          ∨ ∃ r, domFirstWithId "results" dom = some r
              ∧ (r.firstWithId "bad-results-info-banner").isSome = true))
    ∧ (∀ w, domFirstWithClasses mojeekWrapperClasses dom = some w →
        w.children = [] → mojeekParse dom = .ok [])
    ∧ (∀ w, domFirstWithClasses yahooWrapperClasses dom = some w →
        yahooCandidates w = [] → yahooParse dom = some (.ok []))
    ∧ (∀ w, domFirstWithClasses yandexWrapperClasses dom = some w →
        w.allWithClasses yandexSearchResultClasses = [] → yandexParse dom = .ok [])
    ∧ (∀ w, domFirstWithId "results" dom = some w →
        w.firstWithId "bad-results-info-banner" = none →
        braveCandidates w = [] → braveParse dom = .ok []) := by
  refine ⟨?_, ?_, ?_, ?_,
          fun w h1 h2 => by simp [mojeekParse, h1, h2],
          fun w h1 h2 => by simp [yahooParse, h1, h2, yahooExtractList],
          fun w h1 h2 => by simp [yandexParse, h1, h2],
          fun w h1 h2 h3 => by simp [braveParse, h1, h2, h3]⟩
  · cases hw : domFirstWithClasses mojeekWrapperClasses dom with
    | none => simp [mojeekParse, hw]
    | some n => simp [mojeekParse, hw]
  · cases hw : domFirstWithClasses yahooWrapperClasses dom with
    | none => simp [yahooParse, hw]
    | some n =>
        cases he : yahooExtractList (yahooCandidates n) with
        | none => simp [yahooParse, hw, he]
        | some l => simp [yahooParse, hw, he]
  · cases hw : domFirstWithClasses yandexWrapperClasses dom with
    | none => simp [yandexParse, hw]
    | some n => simp [yandexParse, hw]
  · cases hw : domFirstWithId "results" dom with
    | none => simp [braveParse, hw]
    | some r =>
        cases hb : (r.firstWithId "bad-results-info-banner").isSome with
        | true =>
            simp only [braveParse, hw, hb, if_true]
            constructor
            · intro _
              exact .inr ⟨r, rfl, hb⟩
            · intro _
              trivial
        | false =>
            simp only [braveParse, hw, hb, if_false]
            constructor
            · intro h
              exact absurd h (by simp)
            · rintro (h | ⟨r2, hr2, hb2⟩)
              · exact absurd h (by simp)
              · have hrr : r2 = r := (Option.some.inj hr2).symm
                rw [hrr, hb] at hb2
                cases hb2

/-! ## C9 — Google and Bing extraction never fails -/

/-- C9.  Google and Bing search for result cards across the whole
document instead of locating a container, so their `parse` always
succeeds (possibly with the empty list) on every document — and the
external facade parses every input text, including the empty string and
text with no HTML, into some document. -/
theorem c9_theorem (dom : Dom) :
    (∃ l, googleParse dom = .ok l) ∧ (∃ l, bingParse dom = .ok l) :=
  ⟨⟨_, rfl⟩, ⟨_, rfl⟩⟩

/-! ## C3 — unwrap rule, then the shared URL Sanitizer -/

/-- The link target Google's `parse` reads for a candidate: the `href` of
the first anchor inside the candidate's title node. -/
def googleRawHref (c : HtmlNode) : Option String :=
  (c.firstWithClasses googleTitleClasses).bind
    (fun tn => (tn.firstWithTag "a").bind (fun a => a.href))

/-- The link target Bing's `parse` reads for a candidate. -/
def bingRawHref (c : HtmlNode) : Option String :=
  (c.firstWithClasses bingTitleClasses).bind
    (fun tn => (tn.firstWithTag "a").bind (fun a => a.href))

/-- The link target Brave's `parse` reads for a candidate: the first
anchor's `href`. -/
def braveRawHref (c : HtmlNode) : Option String :=
  (c.firstWithTag "a").bind (fun a => a.href)

/-- The link target Mojeek's `parse` reads for a candidate: the `href` of
the title node inside the candidate's `h2` child. -/
def mojeekRawHref (c : HtmlNode) : Option String :=
  (c.firstChildWithTag "h2").bind
    (fun h2n => (h2n.firstChildWithClasses mojeekTitleClasses).bind (fun tn => tn.href))

/-- The link target Yandex's `parse` reads for a candidate: the title
node's `href`. -/
def yandexRawHref (c : HtmlNode) : Option String :=
  (c.firstWithClasses yandexTitleClasses).bind (fun tn => tn.href)

/-- The link target Yahoo's `parse` reads for a candidate: the title
node's `href`. -/
def yahooRawHref (c : HtmlNode) : Option String :=
  (c.firstWithClasses yahooTitleClasses).bind (fun tn => tn.href)

/-- C3.  For every adapter and every candidate that yields an entry, the
entry's URL is the shared URL Sanitizer applied to the provider's unwrap
rule applied to the candidate's actual link target (empty when no anchor
or `href` was found, as in the source's `unwrap_or_default`): Google
first strips a `/url?q=` redirect prefix and sanitizes with its own
tracking-parameter predicate (`ved` / `sa` / `usg` / `utm*`); Yahoo first
takes the substring between the `RU=` and `RK=2` markers (`clean_url`,
whose result on the actual `href` is exhibited); the other adapters'
unwrap rule is the identity, sanitized with the shared constructor's
default predicate. -/
theorem c3_theorem (c : HtmlNode) :
    (∀ e, googleExtract c = some e →
      e.2.url = sanitizeUrl filterSearchParamInResultUrl
        (googleUnwrapUrl ((googleRawHref c).getD "")))
    ∧ (∀ e, bingExtract c = some e →
      e.2.url = sanitizeUrl defaultTrackingFlag ((bingRawHref c).getD ""))
    ∧ (∀ e, braveExtract c = some e →
      e.2.url = sanitizeUrl defaultTrackingFlag ((braveRawHref c).getD ""))
    ∧ (∀ e, mojeekExtract c = some e →
      e.2.url = sanitizeUrl defaultTrackingFlag ((mojeekRawHref c).getD ""))
    ∧ (∀ e, yandexExtract c = some e →
      e.2.url = sanitizeUrl defaultTrackingFlag ((yandexRawHref c).getD ""))
    ∧ (∀ e, yahooExtract c = some (some e) →
        (yahooRawHref c = none → e.2.url = sanitizeUrl defaultTrackingFlag "")
        ∧ (∀ h, yahooRawHref c = some h →
            ∃ u, cleanUrl h = some u ∧ e.2.url = sanitizeUrl defaultTrackingFlag u)) := by
  have hg0 : googleUnwrapUrl "" = "" := rfl
  refine ⟨fun e he => ?_, fun e he => ?_, fun e he => ?_, fun e he => ?_, fun e he => ?_,
          fun e he => ?_⟩
  · cases hc : c.firstWithClasses googleTitleClasses with
    | none => simp [googleExtract, hc] at he
    | some tn =>
        simp only [googleExtract, hc] at he
        obtain rfl := Option.some.inj he
        cases ha : tn.firstWithTag "a" with
        | none => simp [searchResultFromSanitized, googleRawHref, hc, ha, hg0]
        | some a =>
            cases hh : a.href with
            | none => simp [searchResultFromSanitized, googleRawHref, hc, ha, hh, hg0]
            | some raw => simp [searchResultFromSanitized, googleRawHref, hc, ha, hh]
  · cases hc : c.firstWithClasses bingTitleClasses with
    | none => simp [bingExtract, hc] at he
    | some tn =>
        simp only [bingExtract, hc] at he
        obtain rfl := Option.some.inj he
        simp [searchResultNew, bingRawHref, hc]
  · simp only [braveExtract] at he
    obtain rfl := Option.some.inj he
    cases ha : c.firstWithTag "a" with
    | none => simp [searchResultNew, braveRawHref, ha]
    | some a => simp [searchResultNew, braveRawHref, ha]
  · cases h2 : c.firstChildWithTag "h2" with
    | none => simp [mojeekExtract, h2] at he
    | some h2n =>
        cases ht : h2n.firstChildWithClasses mojeekTitleClasses with
        | none => simp [mojeekExtract, h2, ht] at he
        | some tn =>
            simp only [mojeekExtract, h2, ht] at he
            obtain rfl := Option.some.inj he
            simp [searchResultNew, mojeekRawHref, h2, ht]
  · cases hc : c.firstWithClasses yandexTitleClasses with
    | none => simp [yandexExtract, hc] at he
    | some tn =>
        simp only [yandexExtract, hc] at he
        obtain rfl := Option.some.inj he
        simp [searchResultNew, yandexRawHref, hc]
  · cases hc : c.firstWithClasses yahooTitleClasses with
    | none => simp [yahooExtract, hc] at he
    | some tn =>
        simp only [yahooExtract, hc] at he
        cases hh : tn.href with
        | none =>
            rw [hh] at he
            obtain rfl := Option.some.inj (Option.some.inj he)
            constructor
            · intro _
              simp [searchResultNew]
            · intro h hsome
              rw [yahooRawHref, hc] at hsome
              simp only [Option.some_bind, hh] at hsome
              cases hsome
        | some h0 =>
            rw [hh] at he
            dsimp only at he
            cases hcl : cleanUrl h0 with
            | none =>
                rw [hcl] at he
                simp at he
            | some u =>
                rw [hcl] at he
                simp only [Option.map_some'] at he
                obtain rfl := Option.some.inj (Option.some.inj he)
                constructor
                · intro hnone
                  rw [yahooRawHref, hc] at hnone
                  simp only [Option.some_bind, hh] at hnone
                  cases hnone
                · intro h1 hsome
                  rw [yahooRawHref, hc] at hsome
                  simp only [Option.some_bind, hh, Option.some.injEq] at hsome
                  subst hsome
                  exact ⟨u, hcl, by simp [searchResultNew]⟩

/-! ## C4 — pagination arithmetic -/

/-- C4.  The 1-based providers Bing (`first`), Mojeek (`t`) and Yahoo
(`b`) encode start index `10 * page_num + 1`; the 0-based provider Google
(`start`) encodes `10 * page_num`; and each `url` splices exactly these
ordered parameters into the URL it returns. -/
theorem c4_theorem (q : String) (p : Nat) (ss : SafeSearch) (r : Option DateTimeRange) :
    List.lookup "first" (bingParams q ⟨p, ss, r⟩) = some (Nat.repr (10 * p + 1))
    ∧ List.lookup "t" (mojeekParams q ⟨p, ss, r⟩) = some (Nat.repr (10 * p + 1))
    ∧ List.lookup "b" (yahooParams q ⟨p, ss, r⟩) = some (Nat.repr (10 * p + 1))
    ∧ List.lookup "start" (googleParams q ⟨p, ss, r⟩) = some (Nat.repr (10 * p))
    ∧ bingUrl q ⟨p, ss, r⟩
        = .ok ("https://www.bing.com/search?" ++ encodeQueryParams (bingParams q ⟨p, ss, r⟩)
            ++ bingDtParam r)
    ∧ mojeekUrl q ⟨p, ss, r⟩
        = .ok ("https://www.mojeek.com/search?" ++ encodeQueryParams (mojeekParams q ⟨p, ss, r⟩))
    ∧ yahooUrl q ⟨p, ss, r⟩
        = .ok ("https://search.yahoo.com/search?" ++ encodeQueryParams (yahooParams q ⟨p, ss, r⟩)
            ++ yahooSafeSearchParam ss ++ yahooDtParam r)
    ∧ googleUrl q ⟨p, ss, r⟩
        = .ok ("https://www.google.com/search?" ++ encodeQueryParams (googleParams q ⟨p, ss, r⟩)
            ++ googleDtParam r) := by
  refine ⟨rfl, rfl, rfl, ?_, rfl, rfl, rfl, rfl⟩
  have h : p * 10 = 10 * p := Nat.mul_comm p 10
  simp [googleParams, List.lookup, h]

/-! ## C5 — `build_url` failures -/

/-- C5.  Only Yandex's `url` can fail, only with `SafeSearchRestriction`,
and exactly on the strictest safe-search level: `Strict` always gives the
error, `Off` and `Moderate` always succeed, and the five other adapters'
`url` succeeds for every query description. -/
theorem c5_theorem (q : String) (p : Nat) (ss : SafeSearch) (r : Option DateTimeRange) :
    yandexUrl q ⟨p, .Strict, r⟩ = .error .SafeSearchRestriction
    ∧ (∃ u, yandexUrl q ⟨p, .Off, r⟩ = .ok u)
    ∧ (∃ u, yandexUrl q ⟨p, .Moderate, r⟩ = .ok u)
    ∧ (∃ u, bingUrl q ⟨p, ss, r⟩ = .ok u)
    ∧ (∃ u, braveUrl q ⟨p, ss, r⟩ = .ok u)
    ∧ (∃ u, googleUrl q ⟨p, ss, r⟩ = .ok u)
    ∧ (∃ u, mojeekUrl q ⟨p, ss, r⟩ = .ok u)
    ∧ (∃ u, yahooUrl q ⟨p, ss, r⟩ = .ok u) :=
  ⟨rfl, ⟨_, rfl⟩, ⟨_, rfl⟩, ⟨_, rfl⟩, ⟨_, rfl⟩, ⟨_, rfl⟩, ⟨_, rfl⟩, ⟨_, rfl⟩⟩

/-! ## C6 — bot-challenge detection on the final resolved URL -/

/-- C6.  `validate_response` decides the bot challenge on the final
resolved URL: Google returns `Captcha` iff that URL's host is
`sorry.google.com` or its path starts with `/sorry`; Yandex returns
`Captcha` iff its path starts with `/showcaptcha`; the other four
adapters (which use the trait's default hook) accept every response. -/
theorem c6_theorem (response : RawResponse) :
    (googleValidateResponse response = .error .Captcha
      ↔ (response.url.host = some "sorry.google.com"
          ∨ strStartsWith response.url.path "/sorry" = true))
    ∧ (yandexValidateResponse response = .error .Captcha
      ↔ strStartsWith response.url.path "/showcaptcha" = true)
    ∧ defaultValidateResponse response = .ok () := by
  refine ⟨?_, ?_, rfl⟩
  · have hbool : (response.url.host = some "sorry.google.com"
        ∨ strStartsWith response.url.path "/sorry" = true)
        ↔ (response.url.host == some "sorry.google.com"
            || strStartsWith response.url.path "/sorry") = true := by
      simp [Bool.or_eq_true, beq_iff_eq]
    rw [hbool]
    constructor
    · intro hv
      by_cases hcond : (response.url.host == some "sorry.google.com"
          || strStartsWith response.url.path "/sorry") = true
      · exact hcond
      · simp only [Bool.not_eq_true] at hcond
        simp only [googleValidateResponse, hcond, Bool.false_eq_true, if_false] at hv
        cases hv
    · intro hcond
      simp [googleValidateResponse, hcond]
  · constructor
    · intro hv
      by_cases hcond : strStartsWith response.url.path "/showcaptcha" = true
      · exact hcond
      · simp only [Bool.not_eq_true] at hcond
        simp only [yandexValidateResponse, hcond, Bool.false_eq_true, if_false] at hv
        cases hv
    · intro hcond
      simp [yandexValidateResponse, hcond]

/-! ## C7 — closest-preset date ranges -/

/-- C7.  For Google's five presets (1 hour, 24 hours, 1 week, 30 days,
365 days) and Yahoo's three (24 hours, 1 week, 30 days), the chosen
preset is one whose duration is closest to the range duration, ties going
to the smaller preset; a duration exactly equal to a preset picks that
preset; the choice is a function of the duration alone (the model's
`findClosestPreset` takes only the duration); and the chosen label is
exactly what `url` splices after `&tbs=qdr%3A` (Google) / `&btf=`
(Yahoo). -/
theorem c7_theorem (d : Int) (q : String) (p : Nat) (ss : SafeSearch) (r : DateTimeRange) :
    isClosestPresetChoice googleDateTimePresets d (findClosestPresetPair googleDateTimePresets d)
    ∧ isClosestPresetChoice yahooDateTimePresets d (findClosestPresetPair yahooDateTimePresets d)
    ∧ findClosestPreset googleDateTimePresets d = (findClosestPresetPair googleDateTimePresets d).2
    ∧ (findClosestPreset googleDateTimePresets 3600 = "h"
        ∧ findClosestPreset googleDateTimePresets 86400 = "d"
        ∧ findClosestPreset googleDateTimePresets 604800 = "w"
        ∧ findClosestPreset googleDateTimePresets 2592000 = "m"
        ∧ findClosestPreset googleDateTimePresets 31536000 = "y")
    ∧ (findClosestPreset yahooDateTimePresets 86400 = "d"
        ∧ findClosestPreset yahooDateTimePresets 604800 = "w"
        ∧ findClosestPreset yahooDateTimePresets 2592000 = "m")
    ∧ googleUrl q ⟨p, ss, some r⟩
        = .ok ("https://www.google.com/search?" ++ encodeQueryParams (googleParams q ⟨p, ss, some r⟩)
            ++ ("&tbs=qdr%3A" ++ findClosestPreset googleDateTimePresets (rangeDurationSecs r)))
    ∧ yahooUrl q ⟨p, ss, some r⟩
        = .ok ("https://search.yahoo.com/search?" ++ encodeQueryParams (yahooParams q ⟨p, ss, some r⟩)
            ++ yahooSafeSearchParam ss
            ++ ("&btf=" ++ findClosestPreset yahooDateTimePresets (rangeDurationSecs r))) :=
  ⟨closestChoice_google d, closestChoice_yahoo d, rfl,
   ⟨rfl, rfl, rfl, rfl, rfl⟩, ⟨rfl, rfl, rfl⟩, rfl, rfl⟩

/-! ## C8 — determinism, URL validity and the encoded query text -/

set_option maxRecDepth 10000 in
/-- C8, counterexample.  The claim says the built URL contains the query
text exactly once, correctly percent-encoded, as a query-parameter value.
Two failures: for the query `"dark"`, Mojeek's URL contains it twice — as
the value of `q` and as the value of the fixed `theme` parameter; and
Yandex's URL splices the whole encoded parameter string after a literal
`?text=`, so its first parameter parses as `text` with value
`text=dark` — the query text sits inside that value, not as the whole of
it. -/
theorem c8_counterexample :
    mojeekUrl "dark" ⟨0, .Off, none⟩
      = .ok ("https://www.mojeek.com/search?q=dark&t=1&safe=0&theme=dark&arc=none&date=1"
          ++ "&cdate=1&tlen=100&ref=1&hp=minimal&lb=en&qss=Bing%2BBrave%2BDuckDuckGo%2BEcosia"
          ++ "%2BGoogle%2BLilo%2BMetager%2BQwant%2BStartpage%2BSwisscows%2BYandex%2BYep%2BYou")
    ∧ (mojeekParams "dark" ⟨0, .Off, none⟩).filter (fun kv => kv.2 == "dark")
        = [("q", "dark"), ("theme", "dark")]
    ∧ percentEncode "dark" = "dark"
    ∧ yandexUrl "dark" ⟨0, .Off, none⟩
      = .ok ("https://yandex.com/search/site/?text=text=dark&p=0&tmpl_version=releases"
          ++ "&web=1&frame=1&searchid=3131712") :=
  ⟨rfl, rfl, rfl, rfl⟩

/-- C8, amended.  `build_url` is deterministic (a pure function of its
inputs in this model) and, whenever it succeeds, returns a URL made only
of characters legal in an http URL that carries the correctly
percent-encoded query text.  The query text is the first query
parameter's value as the adapter hands it to the encoder (`q` for Bing,
Google, Brave and Mojeek — Mojeek appending its date filter to it — `p`
for Yahoo, `text` for Yandex), and the encoded query appears right after
the literal `…?<key>=` prefix — for Yandex that prefix is
`?text=text=` because the source splices the encoded parameter string
after a literal `?text=`, so there the encoded query is inside, not the
whole of, the first value a URL parser would read.  It need not appear
exactly once, since the query text may coincide with a constant
parameter value (see the counterexample). -/
theorem c8_amended_theorem (q : String) (p : Nat) (ss : SafeSearch) (r : Option DateTimeRange) :
    (googleUrl q ⟨p, ss, r⟩ = googleUrl q ⟨p, ss, r⟩
      ∧ bingUrl q ⟨p, ss, r⟩ = bingUrl q ⟨p, ss, r⟩
      ∧ braveUrl q ⟨p, ss, r⟩ = braveUrl q ⟨p, ss, r⟩
      ∧ mojeekUrl q ⟨p, ss, r⟩ = mojeekUrl q ⟨p, ss, r⟩
      ∧ yahooUrl q ⟨p, ss, r⟩ = yahooUrl q ⟨p, ss, r⟩
      ∧ yandexUrl q ⟨p, ss, r⟩ = yandexUrl q ⟨p, ss, r⟩)
    ∧ (∃ s, bingUrl q ⟨p, ss, r⟩
          = .ok ("https://www.bing.com/search?q=" ++ percentEncode q ++ s)
        ∧ strAll urlAllowedChar ("https://www.bing.com/search?q=" ++ percentEncode q ++ s) = true)
    ∧ (∃ s, googleUrl q ⟨p, ss, r⟩
          = .ok ("https://www.google.com/search?q=" ++ percentEncode q ++ s)
        ∧ strAll urlAllowedChar ("https://www.google.com/search?q=" ++ percentEncode q ++ s) = true)
    ∧ (∃ s, braveUrl q ⟨p, ss, r⟩
          = .ok ("https://search.brave.com/search?q=" ++ percentEncode q ++ s)
        ∧ strAll urlAllowedChar ("https://search.brave.com/search?q=" ++ percentEncode q ++ s) = true)
    ∧ (∃ s, mojeekUrl q ⟨p, ss, r⟩
          = .ok ("https://www.mojeek.com/search?q=" ++ percentEncode q ++ s)
        ∧ strAll urlAllowedChar ("https://www.mojeek.com/search?q=" ++ percentEncode q ++ s) = true)
    ∧ (∃ s, yahooUrl q ⟨p, ss, r⟩
          = .ok ("https://search.yahoo.com/search?p=" ++ percentEncode q ++ s)
        ∧ strAll urlAllowedChar ("https://search.yahoo.com/search?p=" ++ percentEncode q ++ s) = true)
    ∧ (∃ s, yandexUrl q ⟨p, .Off, r⟩
          = .ok ("https://yandex.com/search/site/?text=text=" ++ percentEncode q ++ s)
        ∧ strAll urlAllowedChar
            ("https://yandex.com/search/site/?text=text=" ++ percentEncode q ++ s) = true)
    ∧ (∃ s, yandexUrl q ⟨p, .Moderate, r⟩
          = .ok ("https://yandex.com/search/site/?text=text=" ++ percentEncode q ++ s)
        ∧ strAll urlAllowedChar
            ("https://yandex.com/search/site/?text=text=" ++ percentEncode q ++ s) = true)
    ∧ ((bingParams q ⟨p, ss, r⟩).head? = some ("q", q)
        ∧ (googleParams q ⟨p, ss, r⟩).head? = some ("q", q)
        ∧ (braveParams q ⟨p, ss, r⟩).head? = some ("q", q)
        ∧ (mojeekParams q ⟨p, ss, r⟩).head? = some ("q", q ++ mojeekDtParam r)
        ∧ (yahooParams q ⟨p, ss, r⟩).head? = some ("p", q)
        ∧ (yandexParams q ⟨p, ss, r⟩).head? = some ("text", q)) := by
  refine ⟨⟨rfl, rfl, rfl, rfl, rfl, rfl⟩, ?_, ?_, ?_, ?_, ?_, ?_, ?_,
          ⟨rfl, rfl, rfl, rfl, rfl, rfl⟩⟩
  · obtain ⟨s, hs, hall⟩ := bingUrl_shape q ⟨p, ss, r⟩
    refine ⟨s, hs, ?_⟩
    have hpre : strAll urlAllowedChar "https://www.bing.com/search?q=" = true := by decide
    simp [strAll_append, hpre, percentEncode_urlAllowed, hall]
  · obtain ⟨s, hs, hall⟩ := googleUrl_shape q ⟨p, ss, r⟩
    refine ⟨s, hs, ?_⟩
    have hpre : strAll urlAllowedChar "https://www.google.com/search?q=" = true := by decide
    simp [strAll_append, hpre, percentEncode_urlAllowed, hall]
  · obtain ⟨s, hs, hall⟩ := braveUrl_shape q ⟨p, ss, r⟩
    refine ⟨s, hs, ?_⟩
    have hpre : strAll urlAllowedChar "https://search.brave.com/search?q=" = true := by decide
    simp [strAll_append, hpre, percentEncode_urlAllowed, hall]
  · obtain ⟨s, hs, hall⟩ := mojeekUrl_shape q ⟨p, ss, r⟩
    refine ⟨s, hs, ?_⟩
    have hpre : strAll urlAllowedChar "https://www.mojeek.com/search?q=" = true := by decide
    simp [strAll_append, hpre, percentEncode_urlAllowed, hall]
  · obtain ⟨s, hs, hall⟩ := yahooUrl_shape q ⟨p, ss, r⟩
    refine ⟨s, hs, ?_⟩
    have hpre : strAll urlAllowedChar "https://search.yahoo.com/search?p=" = true := by decide
    simp [strAll_append, hpre, percentEncode_urlAllowed, hall]
  · obtain ⟨s, hs, hall⟩ := yandexUrlOk_shape q ⟨p, .Off, r⟩ (by simp [safeSearchIncrementing])
    refine ⟨s, hs, ?_⟩
    have hpre : strAll urlAllowedChar "https://yandex.com/search/site/?text=text=" = true := by
      decide
    simp [strAll_append, hpre, percentEncode_urlAllowed, hall]
  · obtain ⟨s, hs, hall⟩ := yandexUrlOk_shape q ⟨p, .Moderate, r⟩ (by simp [safeSearchIncrementing])
    refine ⟨s, hs, ?_⟩
    have hpre : strAll urlAllowedChar "https://yandex.com/search/site/?text=text=" = true := by
      decide
    simp [strAll_append, hpre, percentEncode_urlAllowed, hall]

/-! ## C10 — Yahoo's `clean_url` -/

/-- C10, counterexample.  The claim says `clean_url` returns a value
without panicking on every input.  It does not: when the first `RK=2`
occurs before the end of the first `RU=` plus three bytes — as in
`"xRK=2RU="`, where `RU=` is at byte 5 and `RK=2` at byte 1 — the Rust
slice `input_url[start_idx + 3 ..= end_idx - 1]` panics (modelled as
`none`).  On an ordinary wrapped URL the in-between substring is
returned. -/
theorem c10_counterexample :
    cleanUrl "xRK=2RU=" = none
      ∧ cleanUrl "/RU=https%3a%2f%2fexample.comRK=2abc" = some "https%3a%2f%2fexample.com" :=
  ⟨rfl, rfl⟩

/-- C10, amended.  `clean_url` returns its input unchanged when either
marker is absent; when both markers are present and the first `RU=` ends
at or before the first `RK=2` begins (`start_idx + 3 ≤ end_idx`, byte
indices), it returns without panicking the substring strictly between
them — those byte indices always fall on character boundaries, as the
multibyte example shows; but when the first `RK=2` begins before
`start_idx + 3` the slice panics (`none`), so the claim's "never panics"
does not hold. -/
theorem c10_amended_theorem (s : String) :
    (findSub (strBytes "RU=") (strBytes s) = none → cleanUrl s = some s)
    ∧ (findSub (strBytes "RK=2") (strBytes s) = none → cleanUrl s = some s)
    ∧ (∀ i j, findSub (strBytes "RU=") (strBytes s) = some i →
        findSub (strBytes "RK=2") (strBytes s) = some j →
        (i + 3 ≤ j → cleanUrl s = some ⟨takeByteRange (i + 3) j s.data 0⟩)
        ∧ (j < i + 3 → cleanUrl s = none))
    ∧ cleanUrl "éRU=αβRK=2x" = some "αβ" := by
  refine ⟨fun h => by simp [cleanUrl, h], ?_, fun i j hi hj => ⟨fun hle => ?_, fun hlt => ?_⟩, rfl⟩
  · intro h
    cases hru : findSub (strBytes "RU=") (strBytes s) with
    | none => simp [cleanUrl, hru]
    | some i => simp [cleanUrl, hru, h]
  · simp [cleanUrl, hi, hj, hle]
  · have hnot : ¬(i + 3 ≤ j) := by omega
    simp [cleanUrl, hi, hj, hnot]
